import Mathlib

/-!
Verification of the planner-cli repository's aggregation core.

The repository has two Python scripts sharing one aggregation idea:
  * `count_incomplete_tasks.py` — a one-shot CLI report (per-user and global
    status counts, a no-description list, a 10-oldest-incomplete list);
  * `task_metrics_exporter.py` — a metrics exporter that refreshes four
    global gauges and one per-user labelled gauge on a timer.

This file shallowly embeds both: tasks become a record type, the per-task
loop bodies become pure state-transformer functions, the two date parsers
(`datetime.fromisoformat` after a Z-replacement in the CLI,
`time.strptime`/`time.mktime` in the exporter, `dateutil.parser.parse` for
the sort key) are external library calls and are modelled as parameters of
type `String → Option Int` (epoch seconds; `none` models a raised parse
exception, which the call sites either swallow or propagate exactly as the
source does).
-/

namespace Planner

/-- Lifecycle status of a task: the three-way classification both scripts
derive from `percentComplete` (100 / 0 / anything else). -/
inductive Status where
  | completed
  | in_progress
  | not_started
deriving DecidableEq, Repr

/-- Per-user counter record: the value shape both scripts store per user id
(`{"completed": 0, "in_progress": 0, "not_started": 0, "late": 0}`). -/
structure Stats where
  completed : Nat
  in_progress : Nat
  not_started : Nat
  late : Nat
deriving DecidableEq, Repr

/-- The zero record used as the defaultdict / explicit-init default. -/
def Stats.zero : Stats := ⟨0, 0, 0, 0⟩

/-- One raw task record, with exactly the fields the loops read.
`percentComplete` defaults to 0 at the read site (`task.get`), so the field
here is the already-defaulted integer. `dueDateTime`, `createdDateTime` and
`title` are optional JSON fields. `assignments` holds the key list of the
`assignments` mapping when that field is present; `underscoreAssignments`
holds the `.get("userId")` of each element of the `_assignments` list when
that field is present. -/
structure Task where
  percentComplete : Int
  dueDateTime : Option String
  createdDateTime : Option String
  hasDescription : Bool
  title : Option String
  assignments : Option (List String)
  underscoreAssignments : Option (List (Option String))
deriving DecidableEq, Repr

/-- Python truthiness filter on a `userId` value: `if a.get("userId")` keeps
only values that are present and non-empty. -/
def userIdTruthy : Option String → Option String
  | some s => if s = "" then none else some s
  | none => none

/-- The assigned-user-id set of a task: union of the `assignments` mapping
keys and the truthy `userId` values of `_assignments`, with set semantics
(`user_ids = set(); user_ids.update(...)` in both scripts). -/
def taskUserIds (t : Task) : List String :=
  (t.assignments.getD [] ++ (t.underscoreAssignments.getD []).filterMap userIdTruthy).dedup

/-- Lateness check shared by both scripts (`if percent < 100 and due:` then a
guarded parse and a strict comparison against the current instant; a parse
failure is caught and leaves the flag false). `pd` models the script's due
date parser; the empty string is falsy in Python, so it short-circuits the
check before the parse. -/
def is_late (pd : String → Option Int) (now : Int) (t : Task) : Bool :=
  if t.percentComplete < 100 then
    match t.dueDateTime with
    | none => false
    | some s =>
      if s = "" then false
      else
        match pd s with
        | some ts => decide (ts < now)
        | none => false
  else false

/-- Status classification (`if percent == 100 ... elif percent == 0 ... else`),
identical in both scripts. -/
def classifyStatus (percent : Int) : Status :=
  if percent = 100 then .completed
  else if percent = 0 then .not_started
  else .in_progress

/-- The per-user table: an insertion-ordered dictionary from user id to
`Stats`, as both scripts' `user_stats` dictionaries. -/
abbrev UserStats := List (String × Stats)

/-- Dictionary membership/lookup on the per-user table. -/
def lookupUser : UserStats → String → Option Stats
  | [], _ => none
  | (k, v) :: rest, u => if k = u then some v else lookupUser rest u

/-- Read a user's stats with the defaultdict zero default. -/
def getUser (d : UserStats) (u : String) : Stats :=
  (lookupUser d u).getD Stats.zero

/-- Update one user's entry in place, creating it from the zero record when
absent — the semantics of both the CLI's `defaultdict` and the exporter's
explicit `if user_id not in user_stats` initialisation. -/
def updateUser (d : UserStats) (u : String) (f : Stats → Stats) : UserStats :=
  match d with
  | [] => [(u, f Stats.zero)]
  | (k, v) :: rest => if k = u then (k, f v) :: rest else (k, v) :: updateUser rest u f

/-- The user-lookup table loaded from `user_lookup_table.json`, as an
association list. -/
abbrev UserLookup := List (String × String)

/-- Association-list lookup for the user-lookup table. -/
def lookupName : UserLookup → String → Option String
  | [], _ => none
  | (k, v) :: rest, u => if k = u then some v else lookupName rest u

/-- Display-name resolution: `USER_LOOKUP.get(user_id, user_id)` in both
scripts. -/
def get_username (lookup : UserLookup) (u : String) : String :=
  (lookupName lookup u).getD u

/-- The assignee display list built for the CLI's auxiliary lists (lines
116–121 and 126–131): names resolved from the keys of the `assignments`
mapping only (guarded by the mapping's truthiness), defaulting to the
one-element `["Unassigned"]` when empty. -/
def displayAssignees (lookup : UserLookup) (t : Task) : List String :=
  let assignees :=
    match t.assignments with
    | some ks => if ks = [] then [] else ks.map (get_username lookup)
    | none => []
  if assignees = [] then ["Unassigned"] else assignees

/-- The CLI's accumulated state: the four global counters, the per-user
table, and the two auxiliary lists. -/
structure Agg where
  total_completed : Nat
  total_in_progress : Nat
  total_not_started : Nat
  total_late : Nat
  user_stats : UserStats
  no_description_tasks : List (String × List String)
  oldest_not_completed : List (String × String × List String)
deriving DecidableEq, Repr

/-- The CLI's initial state. -/
def Agg.empty : Agg := ⟨0, 0, 0, 0, [], [], []⟩

/-- Bump one status bucket of a `Stats` record (`user_stats[user_id][status] += 1`). -/
def bumpStatus (st : Status) (s : Stats) : Stats :=
  match st with
  | .completed => { s with completed := s.completed + 1 }
  | .in_progress => { s with in_progress := s.in_progress + 1 }
  | .not_started => { s with not_started := s.not_started + 1 }

/-- Conditionally bump the late counter (`if is_late: ... ["late"] += 1`). -/
def bumpLate (lateFlag : Bool) (s : Stats) : Stats :=
  if lateFlag then { s with late := s.late + 1 } else s

/-- One iteration of the CLI's task loop (`count_incomplete_tasks.py`
lines 80–132): lateness, user-id union, status classification with the
global counter bump, per-user bumps, the global late bump, and the two
auxiliary-list appends. -/
def processTaskCLI (pd : String → Option Int) (lookup : UserLookup) (now : Int)
    (a : Agg) (t : Task) : Agg :=
  let percent := t.percentComplete
  let lateFlag := is_late pd now t
  let uids := taskUserIds t
  let status := classifyStatus percent
  let a1 :=
    match status with
    | .completed => { a with total_completed := a.total_completed + 1 }
    | .not_started => { a with total_not_started := a.total_not_started + 1 }
    | .in_progress => { a with total_in_progress := a.total_in_progress + 1 }
  let a2 := { a1 with
    user_stats := uids.foldl (fun d u => updateUser d u (fun s => bumpLate lateFlag (bumpStatus status s))) a1.user_stats }
  let a3 := if lateFlag then { a2 with total_late := a2.total_late + 1 } else a2
  let a4 :=
    if t.hasDescription = false ∧ percent < 100 then
      { a3 with no_description_tasks :=
          a3.no_description_tasks ++ [(t.title.getD "<no title>", displayAssignees lookup t)] }
    else a3
  if percent < 100 then
    match t.createdDateTime with
    | some c =>
      if c = "" then a4
      else { a4 with oldest_not_completed :=
          a4.oldest_not_completed ++ [(c, t.title.getD "<no title>", displayAssignees lookup t)] }
    | none => a4
  else a4

/-- The CLI's whole aggregation pass over the fetched task list. -/
def aggregateCLI (pd : String → Option Int) (lookup : UserLookup) (now : Int)
    (tasks : List Task) : Agg :=
  tasks.foldl (processTaskCLI pd lookup now) Agg.empty

/-- The exporter's accumulated state inside one refresh cycle
(`completed/in_progress/not_started/late` locals plus `user_stats`). -/
structure ExpAgg where
  completed : Nat
  in_progress : Nat
  not_started : Nat
  late : Nat
  user_stats : UserStats
deriving DecidableEq, Repr

/-- The exporter's initial per-cycle state. -/
def ExpAgg.empty : ExpAgg := ⟨0, 0, 0, 0, []⟩

/-- The exporter's per-user bump (`task_metrics_exporter.py` lines 78–85):
an inline percent re-classification plus the conditional late bump. -/
def expBumpUser (percent : Int) (lateFlag : Bool) (s : Stats) : Stats :=
  let s1 :=
    if percent = 100 then { s with completed := s.completed + 1 }
    else if percent = 0 then { s with not_started := s.not_started + 1 }
    else { s with in_progress := s.in_progress + 1 }
  if lateFlag then { s1 with late := s1.late + 1 } else s1

/-- One iteration of the exporter's task loop (`task_metrics_exporter.py`
lines 56–94): lateness, user-id union with the `"unassigned"` sentinel for
an empty set, per-user bumps, then the inline global classification and
late bump. -/
def processTaskExp (pd : String → Option Int) (now : Int) (a : ExpAgg) (t : Task) : ExpAgg :=
  let percent := t.percentComplete
  let lateFlag := is_late pd now t
  let uids0 := taskUserIds t
  let uids := if uids0 = [] then ["unassigned"] else uids0
  let a1 := { a with
    user_stats := uids.foldl (fun d u => updateUser d u (expBumpUser percent lateFlag)) a.user_stats }
  let a2 :=
    if percent = 100 then { a1 with completed := a1.completed + 1 }
    else if percent = 0 then { a1 with not_started := a1.not_started + 1 }
    else { a1 with in_progress := a1.in_progress + 1 }
  if lateFlag then { a2 with late := a2.late + 1 } else a2

/-- The exporter's whole aggregation pass inside one refresh cycle. -/
def aggregateExp (pd : String → Option Int) (now : Int) (tasks : List Task) : ExpAgg :=
  tasks.foldl (processTaskExp pd now) ExpAgg.empty

/-- The exporter's observable metric state: the four global gauges and the
per-user labelled gauge (entries `(user_id, username, status, value)`), as
served by `generate_latest(registry)` to a scraper. -/
structure GaugeState where
  g_completed : Nat
  g_in_progress : Nat
  g_not_started : Nat
  g_late : Nat
  user_gauge : List (String × String × String × Nat)
deriving DecidableEq, Repr

/-- The per-user gauge series written by one refresh cycle
(`task_metrics_exporter.py` lines 101–104): for each recorded user, four
labelled samples in the fixed status order. -/
def userGaugeEntries (lookup : UserLookup) (us : UserStats) :
    List (String × String × String × Nat) :=
  (us.map (fun p =>
    [(p.1, get_username lookup p.1, "completed", p.2.completed),
     (p.1, get_username lookup p.1, "in_progress", p.2.in_progress),
     (p.1, get_username lookup p.1, "not_started", p.2.not_started),
     (p.1, get_username lookup p.1, "late", p.2.late)])).flatten

/-- The end state of the exporter's gauge-update block (lines 95–104): the
four global gauges set to the cycle's counters, the user gauge cleared and
rebuilt from the cycle's per-user table. -/
def writeGauges (lookup : UserLookup) (a : ExpAgg) : GaugeState :=
  { g_completed := a.completed
    g_in_progress := a.in_progress
    g_not_started := a.not_started
    g_late := a.late
    user_gauge := userGaugeEntries lookup a.user_stats }

/-- The sequence of intermediate gauge states a concurrent scrape can
observe while one refresh cycle runs its update block: the block is a
sequence of individual gauge writes (`g_completed.set`, `g_in_progress.set`,
`g_not_started.set`, `g_late.set`, `user_gauge.clear()`, then one
`labels(...).set(...)` per user/status pair), each atomic on its own but
with no lock spanning the block. -/
def gaugeWriteStates (lookup : UserLookup) (a : ExpAgg) (st : GaugeState) :
    List GaugeState :=
  let s1 := { st with g_completed := a.completed }
  let s2 := { s1 with g_in_progress := a.in_progress }
  let s3 := { s2 with g_not_started := a.not_started }
  let s4 := { s3 with g_late := a.late }
  let s5 := { s4 with user_gauge := [] }
  let entries := userGaugeEntries lookup a.user_stats
  [s1, s2, s3, s4, s5] ++ (List.range entries.length).map
    (fun n => { s5 with user_gauge := entries.take (n + 1) })

/-- One refresh cycle of `fetch_and_update_metrics`: the fetch/decode step
(`requests.get`, `raise_for_status`, `resp.json()` and the payload-shape
accesses, all of which raise before any gauge write) modelled as an
`Except`; on success the aggregation runs and the gauges are written, on
any failure the `except` clause only logs and every gauge keeps its prior
value. -/
def refreshCycle (fetch : Except String (List Task)) (pd : String → Option Int)
    (lookup : UserLookup) (now : Int) (st : GaugeState) : GaugeState :=
  match fetch with
  | .error _ => st
  | .ok tasks => writeGauges lookup (aggregateExp pd now tasks)

/-- Key computation of the CLI's oldest-incomplete sort: Python's `sort`
with a `key=` function computes every key left to right before sorting, and
`date_parser.parse` raising on one string aborts the whole sort — modelled
by `none`. -/
def keyOldest (pc : String → Option Int) :
    List (String × String × List String) →
      Option (List (Int × (String × String × List String)))
  | [] => some []
  | x :: xs =>
    match pc x.1 with
    | none => none
    | some k =>
      match keyOldest pc xs with
      | none => none
      | some ys => some ((k, x) :: ys)

/-- Comparison on keyed candidates: ascending by the parsed creation
instant. -/
def keyedLe (p q : Int × (String × String × List String)) : Prop :=
  p.1 ≤ q.1

instance : DecidableRel keyedLe :=
  fun p q => inferInstanceAs (Decidable (p.1 ≤ q.1))

instance : IsTotal (Int × (String × String × List String)) keyedLe :=
  ⟨fun a b => le_total a.1 b.1⟩

instance : IsTrans (Int × (String × String × List String)) keyedLe :=
  ⟨fun _ _ _ h1 h2 => le_trans h1 h2⟩

/-- The CLI's oldest-incomplete display sort (`count_incomplete_tasks.py`
line 152): `oldest_not_completed.sort(key=lambda x: date_parser.parse(x[0]))`.
`pc` models `dateutil.parser.parse` on the stored `createdDateTime` strings;
the key computation is NOT wrapped in a try/except, so one unparseable
string raises out of the sort — modelled by returning `none`. Python's sort
is stable; any stable comparison sort on the precomputed keys is
extensionally equal, and the embedding uses insertion sort. -/
def sortOldest (pc : String → Option Int) (xs : List (String × String × List String)) :
    Option (List (String × String × List String)) :=
  match keyOldest pc xs with
  | none => none
  | some keyed => some ((List.insertionSort keyedLe keyed).map (fun p => p.2))

/-- The displayed oldest-incomplete list (lines 149–153): the sorted
candidates truncated to the first 10. -/
def oldestDisplayed (pc : String → Option Int) (a : Agg) :
    Option (List (String × String × List String)) :=
  (sortOldest pc a.oldest_not_completed).map (fun ys => ys.take 10)

/-- Characterisation of the no-description entry produced for one task
(used to state what the accumulated list contains). -/
def nodescEntry (lookup : UserLookup) (t : Task) : Option (String × List String) :=
  if t.hasDescription = false ∧ t.percentComplete < 100 then
    some (t.title.getD "<no title>", displayAssignees lookup t)
  else none

/-- Characterisation of the oldest-incomplete candidate entry produced for
one task. -/
def oldestEntry (lookup : UserLookup) (t : Task) : Option (String × String × List String) :=
  if t.percentComplete < 100 then
    match t.createdDateTime with
    | some c =>
      if c = "" then none
      else some (c, t.title.getD "<no title>", displayAssignees lookup t)
    | none => none
  else none

/-- Read one global bucket of the CLI state by status. -/
def Agg.bucket (a : Agg) : Status → Nat
  | .completed => a.total_completed
  | .in_progress => a.total_in_progress
  | .not_started => a.total_not_started

/-- Read one global bucket of the exporter state by status. -/
def ExpAgg.bucket (a : ExpAgg) : Status → Nat
  | .completed => a.completed
  | .in_progress => a.in_progress
  | .not_started => a.not_started

/-! Concrete inputs used by witnesses and counterexamples. The parse
functions instantiate the library-call parameters with values the actual
libraries take on exactly the strings occurring in the concrete tasks. -/

/-- Parse stub that rejects every string: the behaviour of any of the date
parsers on a malformed input such as `"garbage"` (the raise is modelled as
`none`). -/
def pdNoneW : String → Option Int := fun _ => none

/-- Parse function agreeing with both scripts' due-date parsers on the one
canonical string `"2020-01-01T00:00:00Z"` (epoch 1577836800), rejecting
everything else. -/
def pdCanonW : String → Option Int :=
  fun s => if s = "2020-01-01T00:00:00Z" then some 1577836800 else none

/-- Creation-instant parse for the oldest-list witness: the values
`dateutil.parser.parse` gives three canonical year-apart instants. -/
def pcYearsW : String → Option Int := fun s =>
  if s = "2019-01-01T00:00:00Z" then some 1546300800
  else if s = "2020-01-01T00:00:00Z" then some 1577836800
  else if s = "2021-01-01T00:00:00Z" then some 1609459200
  else none

/-- Half-done task with a canonical due date in the past of `nowW`. -/
def tDueLateW : Task := ⟨50, some "2020-01-01T00:00:00Z", none, true, some "late-task", none, none⟩

/-- Task assigned to `u1` and `u2`, with `u2` repeated across the two
assignment field shapes and a falsy/absent `userId` in `_assignments`. -/
def tFanW : Task := ⟨0, none, none, true, some "fan", some ["u1", "u2"], some [some "u2", some "", none]⟩

/-- Incomplete, description-less task with no assignee fields at all. -/
def tNoAssigneeW : Task := ⟨0, none, some "2020-01-01T00:00:00Z", false, some "bare", none, none⟩

/-- Incomplete, description-less task whose only assignee arrives through
`_assignments`. -/
def tOnlyUnderscoreW : Task := ⟨0, none, none, false, some "t", none, some [some "u1"]⟩

/-- Incomplete task whose `createdDateTime` is not a date. -/
def tBadCreatedW : Task := ⟨0, none, some "garbage", true, some "x", none, none⟩

/-- Incomplete task created at the 2019 canonical instant. -/
def tOld2019W : Task := ⟨0, none, some "2019-01-01T00:00:00Z", true, some "t1", none, none⟩

/-- Incomplete task created at the 2020 canonical instant. -/
def tOld2020W : Task := ⟨0, none, some "2020-01-01T00:00:00Z", true, some "t2", none, none⟩

/-- Incomplete task created at the 2021 canonical instant. -/
def tOld2021W : Task := ⟨0, none, some "2021-01-01T00:00:00Z", true, some "t3", none, none⟩

/-- Half-done task whose due date carries fractional seconds. -/
def tFracW : Task := ⟨50, some "2020-01-01T00:00:00.500000Z", none, true, some "frac", none, none⟩

/-- Value of `datetime.fromisoformat(due.replace("Z", "+00:00"))` on the
fractional-seconds due string: the CLI's ISO-8601 parser accepts it (the
half second is immaterial to the comparison and dropped here). -/
def pdIsoFracW : String → Option Int :=
  fun s => if s = "2020-01-01T00:00:00.500000Z" then some 1577836800 else none

/-- Value of `time.mktime(time.strptime(due, "%Y-%m-%dT%H:%M:%SZ"))` on the
same string: fractional seconds do not match the fixed format, so the
exporter's parse raises and its handler leaves the task not-late. -/
def pdStrptimeFracW : String → Option Int := fun _ => none

/-- Gauge state published by a previous successful refresh cycle. -/
def stPrevW : GaugeState := ⟨3, 4, 5, 6, []⟩

/-- Aggregation result of the next refresh cycle. -/
def aggNewW : ExpAgg := ⟨10, 11, 12, 13, []⟩

/-- Mixed gauge state: `g_completed` already from the new run, the other
three still from the previous run. -/
def tornW : GaugeState := ⟨10, 4, 5, 6, []⟩

/-! Dictionary lemmas for the per-user table. -/

theorem getUser_cons (k' x : String) (v : Stats) (tl : UserStats) :
    getUser ((k', v) :: tl) x = if k' = x then v else getUser tl x := by
  simp only [getUser, lookupUser]
  split_ifs <;> simp

theorem getUser_updateUser (u k : String) (f : Stats → Stats) :
    ∀ d : UserStats,
      getUser (updateUser d u f) k = if k = u then f (getUser d u) else getUser d k := by
  intro d
  induction d with
  | nil =>
    simp only [updateUser, getUser, lookupUser]
    split_ifs <;> simp_all
  | cons hd tl ih =>
    obtain ⟨k', v⟩ := hd
    simp only [updateUser]
    by_cases h1 : k' = u
    · rw [if_pos h1, getUser_cons, getUser_cons, getUser_cons]
      split_ifs <;> simp_all
    · rw [if_neg h1, getUser_cons, getUser_cons, getUser_cons, ih]
      split_ifs <;> simp_all

theorem getUser_foldl_updateUser (f : Stats → Stats) (uids : List String) :
    ∀ (d : UserStats) (k : String), uids.Nodup →
      getUser (uids.foldl (fun d u => updateUser d u f) d) k =
        if k ∈ uids then f (getUser d k) else getUser d k := by
  induction uids with
  | nil => intro d k _; simp
  | cons u us ih =>
    intro d k hnd
    rw [List.nodup_cons] at hnd
    rw [List.foldl_cons, ih _ k hnd.2]
    by_cases hk : k ∈ us
    · have hku : k ≠ u := fun h => hnd.1 (h ▸ hk)
      simp [hk, getUser_updateUser, hku]
    · by_cases hku : k = u
      · subst hku; simp [hk, getUser_updateUser]
      · simp [hk, hku, getUser_updateUser]

/-! Step-normalisation lemmas: each loop body written as a single record. -/

theorem processTaskCLI_eq (pd : String → Option Int) (lookup : UserLookup) (now : Int)
    (a : Agg) (t : Task) :
    processTaskCLI pd lookup now a t =
      { total_completed := a.total_completed +
          (if classifyStatus t.percentComplete = .completed then 1 else 0)
        total_in_progress := a.total_in_progress +
          (if classifyStatus t.percentComplete = .in_progress then 1 else 0)
        total_not_started := a.total_not_started +
          (if classifyStatus t.percentComplete = .not_started then 1 else 0)
        total_late := a.total_late + (if is_late pd now t then 1 else 0)
        user_stats := (taskUserIds t).foldl
          (fun d u => updateUser d u
            (fun s => bumpLate (is_late pd now t) (bumpStatus (classifyStatus t.percentComplete) s)))
          a.user_stats
        no_description_tasks := a.no_description_tasks ++ (nodescEntry lookup t).toList
        oldest_not_completed := a.oldest_not_completed ++ (oldestEntry lookup t).toList } := by
  cases hst : classifyStatus t.percentComplete <;>
  cases hl : is_late pd now t <;>
  cases hc : t.createdDateTime <;>
  simp only [processTaskCLI, nodescEntry, oldestEntry, hst, hl, hc] <;>
  split_ifs <;>
  simp_all

theorem processTaskExp_eq (pd : String → Option Int) (now : Int) (a : ExpAgg) (t : Task) :
    processTaskExp pd now a t =
      { completed := a.completed +
          (if classifyStatus t.percentComplete = .completed then 1 else 0)
        in_progress := a.in_progress +
          (if classifyStatus t.percentComplete = .in_progress then 1 else 0)
        not_started := a.not_started +
          (if classifyStatus t.percentComplete = .not_started then 1 else 0)
        late := a.late + (if is_late pd now t then 1 else 0)
        user_stats := (if taskUserIds t = [] then ["unassigned"] else taskUserIds t).foldl
          (fun d u => updateUser d u (expBumpUser t.percentComplete (is_late pd now t)))
          a.user_stats } := by
  cases hl : is_late pd now t <;>
  simp only [processTaskExp, classifyStatus, hl] <;>
  split_ifs <;>
  simp_all

theorem expBumpUser_eq (percent : Int) (lateFlag : Bool) (s : Stats) :
    expBumpUser percent lateFlag s = bumpLate lateFlag (bumpStatus (classifyStatus percent) s) := by
  simp only [expBumpUser, bumpLate, bumpStatus, classifyStatus]
  split_ifs <;> rfl

/-! Fold-level characterisations of the two aggregation passes. -/

theorem aggCLI_counts (pd : String → Option Int) (lookup : UserLookup) (now : Int)
    (tasks : List Task) : ∀ a : Agg,
    (tasks.foldl (processTaskCLI pd lookup now) a).total_completed =
      a.total_completed + tasks.countP (fun t => decide (classifyStatus t.percentComplete = .completed)) ∧
    (tasks.foldl (processTaskCLI pd lookup now) a).total_in_progress =
      a.total_in_progress + tasks.countP (fun t => decide (classifyStatus t.percentComplete = .in_progress)) ∧
    (tasks.foldl (processTaskCLI pd lookup now) a).total_not_started =
      a.total_not_started + tasks.countP (fun t => decide (classifyStatus t.percentComplete = .not_started)) ∧
    (tasks.foldl (processTaskCLI pd lookup now) a).total_late =
      a.total_late + tasks.countP (fun t => is_late pd now t) := by
  induction tasks with
  | nil => intro a; simp
  | cons t ts ih =>
    intro a
    rw [List.foldl_cons]
    obtain ⟨h1, h2, h3, h4⟩ := ih (processTaskCLI pd lookup now a t)
    rw [List.countP_cons, List.countP_cons, List.countP_cons, List.countP_cons]
    refine ⟨?_, ?_, ?_, ?_⟩
    · rw [h1, processTaskCLI_eq]
      by_cases h : classifyStatus t.percentComplete = .completed <;> simp [h] <;> omega
    · rw [h2, processTaskCLI_eq]
      by_cases h : classifyStatus t.percentComplete = .in_progress <;> simp [h] <;> omega
    · rw [h3, processTaskCLI_eq]
      by_cases h : classifyStatus t.percentComplete = .not_started <;> simp [h] <;> omega
    · rw [h4, processTaskCLI_eq]
      cases h : is_late pd now t <;> simp [h] <;> omega

theorem aggExp_counts (pd : String → Option Int) (now : Int)
    (tasks : List Task) : ∀ a : ExpAgg,
    (tasks.foldl (processTaskExp pd now) a).completed =
      a.completed + tasks.countP (fun t => decide (classifyStatus t.percentComplete = .completed)) ∧
    (tasks.foldl (processTaskExp pd now) a).in_progress =
      a.in_progress + tasks.countP (fun t => decide (classifyStatus t.percentComplete = .in_progress)) ∧
    (tasks.foldl (processTaskExp pd now) a).not_started =
      a.not_started + tasks.countP (fun t => decide (classifyStatus t.percentComplete = .not_started)) ∧
    (tasks.foldl (processTaskExp pd now) a).late =
      a.late + tasks.countP (fun t => is_late pd now t) := by
  induction tasks with
  | nil => intro a; simp
  | cons t ts ih =>
    intro a
    rw [List.foldl_cons]
    obtain ⟨h1, h2, h3, h4⟩ := ih (processTaskExp pd now a t)
    rw [List.countP_cons, List.countP_cons, List.countP_cons, List.countP_cons]
    refine ⟨?_, ?_, ?_, ?_⟩
    · rw [h1, processTaskExp_eq]
      by_cases h : classifyStatus t.percentComplete = .completed <;> simp [h] <;> omega
    · rw [h2, processTaskExp_eq]
      by_cases h : classifyStatus t.percentComplete = .in_progress <;> simp [h] <;> omega
    · rw [h3, processTaskExp_eq]
      by_cases h : classifyStatus t.percentComplete = .not_started <;> simp [h] <;> omega
    · rw [h4, processTaskExp_eq]
      cases h : is_late pd now t <;> simp [h] <;> omega

theorem aggCLI_lists (pd : String → Option Int) (lookup : UserLookup) (now : Int)
    (tasks : List Task) : ∀ a : Agg,
    (tasks.foldl (processTaskCLI pd lookup now) a).no_description_tasks =
      a.no_description_tasks ++ tasks.filterMap (nodescEntry lookup) ∧
    (tasks.foldl (processTaskCLI pd lookup now) a).oldest_not_completed =
      a.oldest_not_completed ++ tasks.filterMap (oldestEntry lookup) := by
  induction tasks with
  | nil => intro a; simp
  | cons t ts ih =>
    intro a
    rw [List.foldl_cons]
    obtain ⟨h1, h2⟩ := ih (processTaskCLI pd lookup now a t)
    rw [h1, h2, processTaskCLI_eq]
    constructor <;>
      (cases h : nodescEntry lookup t <;> cases h' : oldestEntry lookup t <;>
        simp [h, h', List.filterMap_cons])

theorem count_three_statuses (tasks : List Task) :
    tasks.countP (fun t => decide (classifyStatus t.percentComplete = .completed)) +
    tasks.countP (fun t => decide (classifyStatus t.percentComplete = .in_progress)) +
    tasks.countP (fun t => decide (classifyStatus t.percentComplete = .not_started)) =
      tasks.length := by
  induction tasks with
  | nil => rfl
  | cons t ts ih =>
    rw [List.countP_cons, List.countP_cons, List.countP_cons, List.length_cons]
    cases h : classifyStatus t.percentComplete <;> simp [h] <;> omega

theorem is_late_congr (pd1 pd2 : String → Option Int) (now : Int) (t : Task)
    (h : ∀ s, t.dueDateTime = some s → pd1 s = pd2 s) :
    is_late pd1 now t = is_late pd2 now t := by
  cases hd : t.dueDateTime
  · simp [is_late, hd]
  · simp [is_late, hd, h _ hd]

/-! Lemmas about the oldest-incomplete sort. -/

theorem keyOldest_eq_none_iff (pc : String → Option Int)
    (xs : List (String × String × List String)) :
    keyOldest pc xs = none ↔ ∃ e ∈ xs, pc e.1 = none := by
  induction xs with
  | nil => simp [keyOldest]
  | cons x xs ih =>
    simp only [keyOldest]
    cases hx : pc x.1
    · simp [hx]
    · cases hys : keyOldest pc xs
      · rw [hys] at ih
        simp only [List.mem_cons]
        constructor
        · intro _
          obtain ⟨e, he, hnone⟩ := ih.mp rfl
          exact ⟨e, Or.inr he, hnone⟩
        · intro _; trivial
      · rw [hys] at ih
        simp only [List.mem_cons]
        constructor
        · intro hcontra; exact absurd hcontra (by simp)
        · rintro ⟨e, he | he, hnone⟩
          · rw [he] at hnone; rw [hx] at hnone; exact absurd hnone (by simp)
          · exact absurd (ih.mpr ⟨e, he, hnone⟩) (by simp)

theorem keyOldest_some (pc : String → Option Int) :
    ∀ (xs : List (String × String × List String))
      (ys : List (Int × (String × String × List String))),
      keyOldest pc xs = some ys →
        ys.map (fun p => p.2) = xs ∧ ∀ p ∈ ys, pc p.2.1 = some p.1 := by
  intro xs
  induction xs with
  | nil =>
    intro ys h
    simp only [keyOldest, Option.some.injEq] at h
    subst h
    simp
  | cons x xs ih =>
    intro ys h
    simp only [keyOldest] at h
    cases hx : pc x.1 <;> rw [hx] at h
    · exact absurd h (by simp)
    · cases hys : keyOldest pc xs <;> rw [hys] at h
      · exact absurd h (by simp)
      · rename_i k zs
        obtain ⟨h1, h2⟩ := ih zs hys
        rw [Option.some.injEq] at h
        subst h
        refine ⟨by simp [h1], ?_⟩
        intro p hp
        rcases List.mem_cons.mp hp with rfl | hp
        · exact hx
        · exact h2 p hp

theorem sortOldest_spec (pc : String → Option Int)
    (xs : List (String × String × List String))
    (h : ∀ e ∈ xs, (pc e.1).isSome) :
    ∃ ys, sortOldest pc xs = some ys ∧ ys.Perm xs ∧
      ys.Pairwise (fun e f => (pc e.1).getD 0 ≤ (pc f.1).getD 0) := by
  cases hky : keyOldest pc xs with
  | none =>
    obtain ⟨e, he, hnone⟩ := (keyOldest_eq_none_iff pc xs).mp hky
    have := h e he
    rw [hnone] at this
    exact absurd this (by simp)
  | some keyed =>
    obtain ⟨hmap, hinv⟩ := keyOldest_some pc xs keyed hky
    refine ⟨(List.insertionSort keyedLe keyed).map (fun p => p.2), ?_, ?_, ?_⟩
    · simp [sortOldest, hky]
    · exact hmap ▸ ((List.perm_insertionSort keyedLe keyed).map (fun p => p.2))
    · have hsorted : (List.insertionSort keyedLe keyed).Pairwise keyedLe :=
        List.sorted_insertionSort keyedLe keyed
      have hmem : ∀ p ∈ List.insertionSort keyedLe keyed, pc p.2.1 = some p.1 := by
        intro p hp
        exact hinv p ((List.perm_insertionSort keyedLe keyed).mem_iff.mp hp)
      rw [List.pairwise_map]
      refine hsorted.imp_of_mem ?_
      intro p q hp hq hle
      rw [hmem p hp, hmem q hq]
      exact hle

theorem processTaskCLI_user_stats (pd : String → Option Int) (lookup : UserLookup)
    (now : Int) (a : Agg) (t : Task) :
    (processTaskCLI pd lookup now a t).user_stats =
      (taskUserIds t).foldl
        (fun d u => updateUser d u
          (fun s => bumpLate (is_late pd now t) (bumpStatus (classifyStatus t.percentComplete) s)))
        a.user_stats := by
  rw [processTaskCLI_eq]

theorem processTaskExp_user_stats (pd : String → Option Int) (now : Int)
    (a : ExpAgg) (t : Task) :
    (processTaskExp pd now a t).user_stats =
      (if taskUserIds t = [] then ["unassigned"] else taskUserIds t).foldl
        (fun d u => updateUser d u (expBumpUser t.percentComplete (is_late pd now t)))
        a.user_stats := by
  rw [processTaskExp_eq]

/-! Claim theorems. -/

/-- C1: every task is assigned exactly one of the three statuses, determined
solely by its completion percent (100 gives Completed, 0 gives NotStarted,
any other value gives InProgress), and in both variants the three global
status counters sum to exactly the number of input tasks. -/
theorem C1_status_partition (pd : String → Option Int) (lookup : UserLookup) (now : Int)
    (tasks : List Task) :
    (∀ p : Int,
      (classifyStatus p = .completed ↔ p = 100) ∧
      (classifyStatus p = .not_started ↔ (p ≠ 100 ∧ p = 0)) ∧
      (classifyStatus p = .in_progress ↔ (p ≠ 100 ∧ p ≠ 0))) ∧
    (aggregateCLI pd lookup now tasks).total_completed +
      (aggregateCLI pd lookup now tasks).total_in_progress +
      (aggregateCLI pd lookup now tasks).total_not_started = tasks.length ∧
    (aggregateExp pd now tasks).completed + (aggregateExp pd now tasks).in_progress +
      (aggregateExp pd now tasks).not_started = tasks.length := by
  refine ⟨?_, ?_, ?_⟩
  · intro p
    unfold classifyStatus
    split_ifs <;> simp_all
  · obtain ⟨h1, h2, h3, _⟩ := aggCLI_counts pd lookup now tasks Agg.empty
    unfold aggregateCLI
    rw [h1, h2, h3]
    simpa [Agg.empty] using count_three_statuses tasks
  · obtain ⟨h1, h2, h3, _⟩ := aggExp_counts pd now tasks ExpAgg.empty
    unfold aggregateExp
    rw [h1, h2, h3]
    simpa [ExpAgg.empty] using count_three_statuses tasks

/-- C2: the lateness flag is true iff the completion percent is strictly
below 100, a due string is present and parses, and the parsed due instant is
strictly earlier than the current instant; a task at 100 percent is never
late regardless of its due date, and a task with no due date is never late.
The sole hypothesis pins the parser's value on the empty string (which
Python's truthiness test short-circuits before parsing; every real parser
rejects it). -/
theorem C2_late_iff (pd : String → Option Int) (now : Int) (t : Task)
    (h0 : pd "" = none) :
    (is_late pd now t = true ↔
      t.percentComplete < 100 ∧
        ∃ s ts, t.dueDateTime = some s ∧ pd s = some ts ∧ ts < now) ∧
    (t.percentComplete = 100 → is_late pd now t = false) ∧
    (t.dueDateTime = none → is_late pd now t = false) := by
  refine ⟨?_, ?_, ?_⟩
  · unfold is_late
    by_cases hp : t.percentComplete < 100
    · cases hd : t.dueDateTime with
      | none => simp [hp, hd]
      | some s =>
        by_cases hs : s = ""
        · subst hs
          simp [hp, hd, h0]
        · cases hps : pd s with
          | none => simp [hp, hd, hs, hps]
          | some ts => simp [hp, hd, hs, hps]
    · simp [hp]
  · intro h
    simp [is_late, h]
  · intro h
    simp only [is_late, h]
    split_ifs <;> rfl

/-- Witness for C2: a half-done task with a canonical past due date, checked
against the canonical parse function. -/
theorem C2_late_iff_witness :
    pdCanonW "" = none ∧
    ((is_late pdCanonW 1700000000 tDueLateW = true ↔
      tDueLateW.percentComplete < 100 ∧
        ∃ s ts, tDueLateW.dueDateTime = some s ∧ pdCanonW s = some ts ∧ ts < 1700000000) ∧
     (tDueLateW.percentComplete = 100 → is_late pdCanonW 1700000000 tDueLateW = false) ∧
     (tDueLateW.dueDateTime = none → is_late pdCanonW 1700000000 tDueLateW = false)) :=
  ⟨by decide, C2_late_iff pdCanonW 1700000000 tDueLateW (by decide)⟩

/-- C3: per task, the deduplicated union of the `assignments` keys and the
truthy `_assignments` userIds determines the per-user updates: the union is
duplicate-free, membership is exactly presence in either source field, each
member's row is bumped exactly once in its status bucket (and late counter
when late), every other row is untouched, and the global bucket for the
task's status grows by exactly one. Both variants' loops are covered. -/
theorem C3_fanout (pd : String → Option Int) (lookup : UserLookup) (now : Int)
    (a : Agg) (e : ExpAgg) (t : Task) (uid : String) (h : uid ∈ taskUserIds t) :
    (taskUserIds t).Nodup ∧
    (∀ u, u ∈ taskUserIds t ↔
      (u ∈ t.assignments.getD [] ∨ (some u ∈ t.underscoreAssignments.getD [] ∧ u ≠ ""))) ∧
    getUser (processTaskCLI pd lookup now a t).user_stats uid =
      bumpLate (is_late pd now t)
        (bumpStatus (classifyStatus t.percentComplete) (getUser a.user_stats uid)) ∧
    (∀ u, u ∉ taskUserIds t →
      getUser (processTaskCLI pd lookup now a t).user_stats u = getUser a.user_stats u) ∧
    (processTaskCLI pd lookup now a t).bucket (classifyStatus t.percentComplete) =
      a.bucket (classifyStatus t.percentComplete) + 1 ∧
    getUser (processTaskExp pd now e t).user_stats uid =
      bumpLate (is_late pd now t)
        (bumpStatus (classifyStatus t.percentComplete) (getUser e.user_stats uid)) ∧
    (processTaskExp pd now e t).bucket (classifyStatus t.percentComplete) =
      e.bucket (classifyStatus t.percentComplete) + 1 := by
  have hnd : (taskUserIds t).Nodup := List.nodup_dedup _
  have hne : taskUserIds t ≠ [] := List.ne_nil_of_mem h
  refine ⟨hnd, ?_, ?_, ?_, ?_, ?_, ?_⟩
  · intro u
    unfold taskUserIds
    rw [List.mem_dedup, List.mem_append, List.mem_filterMap]
    constructor
    · rintro (h1 | ⟨o, ho, hu⟩)
      · exact Or.inl h1
      · cases o with
        | none => simp [userIdTruthy] at hu
        | some s =>
          simp only [userIdTruthy] at hu
          split_ifs at hu with hs
          obtain rfl : s = u := Option.some.inj hu
          exact Or.inr ⟨ho, hs⟩
    · rintro (h1 | ⟨ho, hne⟩)
      · exact Or.inl h1
      · exact Or.inr ⟨some u, ho, by simp [userIdTruthy, hne]⟩
  · rw [processTaskCLI_user_stats, getUser_foldl_updateUser _ _ _ _ hnd]
    simp [h]
  · intro u hu
    rw [processTaskCLI_user_stats, getUser_foldl_updateUser _ _ _ _ hnd]
    simp [hu]
  · rw [processTaskCLI_eq]
    cases hst : classifyStatus t.percentComplete <;> simp [Agg.bucket, hst]
  · rw [processTaskExp_user_stats, if_neg hne, getUser_foldl_updateUser _ _ _ _ hnd]
    simp [h, expBumpUser_eq]
  · rw [processTaskExp_eq]
    cases hst : classifyStatus t.percentComplete <;> simp [ExpAgg.bucket, hst]

/-- Witness for C3: the task assigned to `u1` and `u2` with `u2` repeated
across the two field shapes still bumps `u2`'s row exactly once in either
variant, and each variant's global bucket once. -/
theorem C3_fanout_witness :
    "u2" ∈ taskUserIds tFanW ∧
    getUser (processTaskCLI pdNoneW [] 0 Agg.empty tFanW).user_stats "u2" =
      bumpLate (is_late pdNoneW 0 tFanW)
        (bumpStatus (classifyStatus tFanW.percentComplete) (getUser Agg.empty.user_stats "u2")) ∧
    (processTaskCLI pdNoneW [] 0 Agg.empty tFanW).bucket (classifyStatus tFanW.percentComplete) =
      Agg.empty.bucket (classifyStatus tFanW.percentComplete) + 1 ∧
    getUser (processTaskExp pdNoneW 0 ExpAgg.empty tFanW).user_stats "u2" =
      bumpLate (is_late pdNoneW 0 tFanW)
        (bumpStatus (classifyStatus tFanW.percentComplete) (getUser ExpAgg.empty.user_stats "u2")) ∧
    (processTaskExp pdNoneW 0 ExpAgg.empty tFanW).bucket (classifyStatus tFanW.percentComplete) =
      ExpAgg.empty.bucket (classifyStatus tFanW.percentComplete) + 1 :=
  ⟨by decide, (C3_fanout pdNoneW [] 0 Agg.empty ExpAgg.empty tFanW "u2" (by decide)).2.2.1,
    (C3_fanout pdNoneW [] 0 Agg.empty ExpAgg.empty tFanW "u2" (by decide)).2.2.2.2.1,
    (C3_fanout pdNoneW [] 0 Agg.empty ExpAgg.empty tFanW "u2" (by decide)).2.2.2.2.2.1,
    (C3_fanout pdNoneW [] 0 Agg.empty ExpAgg.empty tFanW "u2" (by decide)).2.2.2.2.2.2⟩

/-- C4 counterexample: the CLI run of one assignee-less task builds both
auxiliary lists, yet its per-user table stays empty — no "unassigned"
sentinel row is incremented in the variant that builds auxiliary lists. -/
theorem C4_counterexample :
    (aggregateCLI pdNoneW [] 0 [tNoAssigneeW]).oldest_not_completed ≠ [] ∧
    (aggregateCLI pdNoneW [] 0 [tNoAssigneeW]).no_description_tasks ≠ [] ∧
    (aggregateCLI pdNoneW [] 0 [tNoAssigneeW]).user_stats = [] ∧
    lookupUser (aggregateCLI pdNoneW [] 0 [tNoAssigneeW]).user_stats "unassigned" = none := by
  decide

/-- C4 (amended): for a task whose assignee-ID set is empty, the CLI — the
variant that builds auxiliary lists — leaves the per-user table entirely
unchanged (no sentinel row; the "Unassigned" default is display text in the
auxiliary entries only), while the exporter — which builds no auxiliary
lists — increments the "unassigned" sentinel row's status bucket and, when
the task is late, its late counter. -/
theorem C4_sentinel (pd : String → Option Int) (lookup : UserLookup) (now : Int)
    (a : Agg) (e : ExpAgg) (t : Task) (h : taskUserIds t = []) :
    (processTaskCLI pd lookup now a t).user_stats = a.user_stats ∧
    getUser (processTaskExp pd now e t).user_stats "unassigned" =
      bumpLate (is_late pd now t)
        (bumpStatus (classifyStatus t.percentComplete) (getUser e.user_stats "unassigned")) := by
  constructor
  · rw [processTaskCLI_user_stats, h]
    rfl
  · rw [processTaskExp_user_stats, h]
    simp [getUser_updateUser, expBumpUser_eq]

/-- Witness for C4 at the concrete assignee-less task. -/
theorem C4_sentinel_witness :
    taskUserIds tNoAssigneeW = [] ∧
    ((processTaskCLI pdNoneW [] 0 Agg.empty tNoAssigneeW).user_stats = Agg.empty.user_stats ∧
     getUser (processTaskExp pdNoneW 0 ExpAgg.empty tNoAssigneeW).user_stats "unassigned" =
       bumpLate (is_late pdNoneW 0 tNoAssigneeW)
         (bumpStatus (classifyStatus tNoAssigneeW.percentComplete)
           (getUser ExpAgg.empty.user_stats "unassigned"))) :=
  ⟨by decide, C4_sentinel pdNoneW [] 0 Agg.empty ExpAgg.empty tNoAssigneeW (by decide)⟩

/-- C5: the oldest-incomplete candidates are exactly the tasks with percent
below 100 and a (truthy) creation string, and — when every collected
creation string parses, the only case in which the sort returns at all —
the displayed list is those candidates reordered ascending by parsed
creation instant and truncated to the first 10 (the fixed limit, matching
the claimed default). -/
theorem C5_oldest (pd pc : String → Option Int) (lookup : UserLookup) (now : Int)
    (tasks : List Task)
    (h : ∀ e ∈ (aggregateCLI pd lookup now tasks).oldest_not_completed, (pc e.1).isSome) :
    (aggregateCLI pd lookup now tasks).oldest_not_completed =
      tasks.filterMap (oldestEntry lookup) ∧
    ∃ ys, sortOldest pc (aggregateCLI pd lookup now tasks).oldest_not_completed = some ys ∧
      ys.Perm (aggregateCLI pd lookup now tasks).oldest_not_completed ∧
      ys.Pairwise (fun e f => (pc e.1).getD 0 ≤ (pc f.1).getD 0) ∧
      oldestDisplayed pc (aggregateCLI pd lookup now tasks) = some (ys.take 10) := by
  have hfm : (aggregateCLI pd lookup now tasks).oldest_not_completed =
      tasks.filterMap (oldestEntry lookup) := by
    show (tasks.foldl (processTaskCLI pd lookup now) Agg.empty).oldest_not_completed = _
    rw [(aggCLI_lists pd lookup now tasks Agg.empty).2]
    simp [Agg.empty]
  refine ⟨hfm, ?_⟩
  obtain ⟨ys, h1, h2, h3⟩ := sortOldest_spec pc _ h
  exact ⟨ys, h1, h2, h3, by simp [oldestDisplayed, h1]⟩

/-- Witness for C5: three incomplete tasks created at `[t3, t1, t2]`
instants are collected in input order and the sort/truncate step succeeds. -/
theorem C5_oldest_witness :
    (∀ e ∈ (aggregateCLI pdNoneW [] 0 [tOld2021W, tOld2019W, tOld2020W]).oldest_not_completed,
      (pcYearsW e.1).isSome) ∧
    ((aggregateCLI pdNoneW [] 0 [tOld2021W, tOld2019W, tOld2020W]).oldest_not_completed =
      [tOld2021W, tOld2019W, tOld2020W].filterMap (oldestEntry []) ∧
     ∃ ys, sortOldest pcYearsW
         (aggregateCLI pdNoneW [] 0 [tOld2021W, tOld2019W, tOld2020W]).oldest_not_completed =
           some ys ∧
       ys.Perm (aggregateCLI pdNoneW [] 0 [tOld2021W, tOld2019W, tOld2020W]).oldest_not_completed ∧
       ys.Pairwise (fun e f => (pcYearsW e.1).getD 0 ≤ (pcYearsW f.1).getD 0) ∧
       oldestDisplayed pcYearsW (aggregateCLI pdNoneW [] 0 [tOld2021W, tOld2019W, tOld2020W]) =
         some (ys.take 10)) :=
  ⟨by decide, C5_oldest pdNoneW pcYearsW [] 0 [tOld2021W, tOld2019W, tOld2020W] (by decide)⟩

/-- C6 counterexample: a task whose only assignee arrives through
`_assignments` lands in the no-description list with the default
`["Unassigned"]` names even though its assignee-ID set is `["u1"]` (whose
resolved display name would be "u1"): the displayed names come from the
`assignments` mapping only, not from the assignee-ID set. -/
theorem C6_counterexample :
    (aggregateCLI pdNoneW [] 0 [tOnlyUnderscoreW]).no_description_tasks =
      [("t", ["Unassigned"])] ∧
    taskUserIds tOnlyUnderscoreW = ["u1"] ∧
    get_username [] "u1" = "u1" := by
  decide

/-- C6 (amended): the no-description list contains exactly the tasks with
percent below 100 and hasDescription false, each entry pairing the task
title with display names resolved from the keys of the `assignments`
mapping only (ignoring `_assignments`), defaulting to the one-element
`["Unassigned"]` when that mapping is absent or empty. -/
theorem C6_nodesc (pd : String → Option Int) (lookup : UserLookup) (now : Int)
    (tasks : List Task) :
    (aggregateCLI pd lookup now tasks).no_description_tasks =
      tasks.filterMap (nodescEntry lookup) ∧
    ∀ t : Task, displayAssignees lookup t =
      (if t.assignments.getD [] = [] then ["Unassigned"]
       else (t.assignments.getD []).map (get_username lookup)) := by
  constructor
  · show (tasks.foldl (processTaskCLI pd lookup now) Agg.empty).no_description_tasks = _
    rw [(aggCLI_lists pd lookup now tasks Agg.empty).1]
    simp [Agg.empty]
  · intro t
    unfold displayAssignees
    cases ha : t.assignments with
    | none => simp
    | some ks =>
      cases ks with
      | nil => simp
      | cons k ks' => simp

/-- C7: a refresh cycle that fails (network error, malformed payload,
non-success HTTP status — all raising before any gauge write) leaves the
published gauge state exactly as it was before the cycle started. -/
theorem C7_failed_refresh (msg : String) (pd : String → Option Int) (lookup : UserLookup)
    (now : Int) (st : GaugeState) :
    refreshCycle (.error msg) pd lookup now st = st := rfl

/-- C8 counterexample: one incomplete task with the unparseable creation
string "garbage" is collected, and the oldest-incomplete presentation step
fails in the unguarded sort-key parse (the modelled raise, `none`): a
malformed date does propagate a parse exception out of the presentation
step. -/
theorem C8_counterexample :
    (oldestDisplayed pdNoneW (aggregateCLI pdCanonW [] 0 [tBadCreatedW])).isSome = false ∧
    pdNoneW "garbage" = none := by
  decide

/-- C8 (amended): a due-date string that fails to parse is recovered
locally — the lateness flag is simply false and nothing propagates out of
the aggregation — but the presentation step's oldest-incomplete sort-key
parse is NOT guarded: the sort raises exactly when some collected creation
string fails to parse. -/
theorem C8_parse_containment (pd pc : String → Option Int) (now : Int) (t : Task)
    (s : String) (xs : List (String × String × List String))
    (hdue : t.dueDateTime = some s) (hfail : pd s = none) :
    is_late pd now t = false ∧
    (sortOldest pc xs = none ↔ ∃ e ∈ xs, pc e.1 = none) := by
  constructor
  · simp only [is_late, hdue, hfail]
    split_ifs <;> rfl
  · cases hk : keyOldest pc xs with
    | none =>
      have hs : sortOldest pc xs = none := by simp [sortOldest, hk]
      rw [hs]
      exact iff_of_true rfl ((keyOldest_eq_none_iff pc xs).mp hk)
    | some keyed =>
      simp only [sortOldest, hk]
      constructor
      · intro hcontra
        exact absurd hcontra (by simp)
      · intro hex
        have hnone := (keyOldest_eq_none_iff pc xs).mpr hex
        rw [hk] at hnone
        exact absurd hnone (by simp)

/-- Witness for C8: the canonical due string rejected by the parse stub
leaves the task not-late, and a one-entry candidate list with the
unparseable creation string makes the sort fail. -/
theorem C8_parse_containment_witness :
    tDueLateW.dueDateTime = some "2020-01-01T00:00:00Z" ∧
    pdNoneW "2020-01-01T00:00:00Z" = none ∧
    (is_late pdNoneW 1700000000 tDueLateW = false ∧
     (sortOldest pdNoneW [("garbage", "x", ["Unassigned"])] = none ↔
       ∃ e ∈ [("garbage", "x", ["Unassigned"])], pdNoneW e.1 = none)) :=
  ⟨by decide, by decide,
    C8_parse_containment pdNoneW pdNoneW 1700000000 tDueLateW "2020-01-01T00:00:00Z"
      [("garbage", "x", ["Unassigned"])] (by decide) (by decide)⟩

/-- C9 counterexample: the state after the update block's first gauge write
is observable to a concurrent scrape; with previous-cycle values (3,4,5,6)
and new-cycle values (10,11,12,13) it reports the new completed counter
next to the previous late counter — a partially updated snapshot. -/
theorem C9_counterexample :
    tornW ∈ gaugeWriteStates [] aggNewW stPrevW ∧
    tornW.g_completed = aggNewW.completed ∧ tornW.g_completed ≠ stPrevW.g_completed ∧
    tornW.g_late = stPrevW.g_late ∧ tornW.g_late ≠ aggNewW.late := by
  decide

/-- C9 (amended): the update block is not atomic as a whole — mixed states
are observable — but each single gauge write is: in every observable
intermediate state each of the four global gauges holds either its
previous-cycle or its new-cycle value, and once the block finishes a reader
sees exactly the new cycle's values. -/
theorem C9_per_gauge (lookup : UserLookup) (a : ExpAgg) (st : GaugeState)
    (i : GaugeState) (h : i ∈ gaugeWriteStates lookup a st) :
    ((i.g_completed = st.g_completed ∨ i.g_completed = a.completed) ∧
     (i.g_in_progress = st.g_in_progress ∨ i.g_in_progress = a.in_progress) ∧
     (i.g_not_started = st.g_not_started ∨ i.g_not_started = a.not_started) ∧
     (i.g_late = st.g_late ∨ i.g_late = a.late)) ∧
    (writeGauges lookup a).g_completed = a.completed ∧
    (writeGauges lookup a).g_in_progress = a.in_progress ∧
    (writeGauges lookup a).g_not_started = a.not_started ∧
    (writeGauges lookup a).g_late = a.late := by
  refine ⟨?_, rfl, rfl, rfl, rfl⟩
  simp only [gaugeWriteStates, List.mem_append, List.mem_cons, List.mem_map,
    List.mem_range, List.not_mem_nil, or_false] at h
  rcases h with (rfl | rfl | rfl | rfl | rfl) | ⟨n, _, rfl⟩
  · exact ⟨Or.inr rfl, Or.inl rfl, Or.inl rfl, Or.inl rfl⟩
  · exact ⟨Or.inr rfl, Or.inr rfl, Or.inl rfl, Or.inl rfl⟩
  · exact ⟨Or.inr rfl, Or.inr rfl, Or.inr rfl, Or.inl rfl⟩
  · exact ⟨Or.inr rfl, Or.inr rfl, Or.inr rfl, Or.inr rfl⟩
  · exact ⟨Or.inr rfl, Or.inr rfl, Or.inr rfl, Or.inr rfl⟩
  · exact ⟨Or.inr rfl, Or.inr rfl, Or.inr rfl, Or.inr rfl⟩

/-- Witness for C9 at the concrete mixed state of the counterexample
input. -/
theorem C9_per_gauge_witness :
    tornW ∈ gaugeWriteStates [] aggNewW stPrevW ∧
    (((tornW.g_completed = stPrevW.g_completed ∨ tornW.g_completed = aggNewW.completed) ∧
      (tornW.g_in_progress = stPrevW.g_in_progress ∨ tornW.g_in_progress = aggNewW.in_progress) ∧
      (tornW.g_not_started = stPrevW.g_not_started ∨ tornW.g_not_started = aggNewW.not_started) ∧
      (tornW.g_late = stPrevW.g_late ∨ tornW.g_late = aggNewW.late)) ∧
     (writeGauges [] aggNewW).g_completed = aggNewW.completed ∧
     (writeGauges [] aggNewW).g_in_progress = aggNewW.in_progress ∧
     (writeGauges [] aggNewW).g_not_started = aggNewW.not_started ∧
     (writeGauges [] aggNewW).g_late = aggNewW.late) :=
  ⟨by decide, C9_per_gauge [] aggNewW stPrevW tornW (by decide)⟩

/-- C10 counterexample: on a half-done task whose due string carries
fractional seconds, the CLI's ISO-8601 parse accepts it (and the instant is
past due) while the exporter's strict `%Y-%m-%dT%H:%M:%SZ` parse raises, so
the late counters — and hence the global 4-tuples — differ. -/
theorem C10_counterexample :
    (aggregateCLI pdIsoFracW [] 1700000000 [tFracW]).total_late = 1 ∧
    (aggregateExp pdStrptimeFracW 1700000000 [tFracW]).late = 0 ∧
    (aggregateCLI pdIsoFracW [] 1700000000 [tFracW]).total_in_progress =
      (aggregateExp pdStrptimeFracW 1700000000 [tFracW]).in_progress := by
  decide

/-- C10 (amended): the two variants' three global status counters always
agree (they depend only on percent), and the late counters — hence the full
4-tuples — agree whenever the two due-date parsers agree on every due
string present in the input; they diverge on strings only one parser
accepts, such as due dates with fractional seconds or non-Z offsets. -/
theorem C10_variants_agree (pd1 pd2 : String → Option Int) (lookup : UserLookup)
    (now : Int) (tasks : List Task) :
    (aggregateExp pd2 now tasks).completed = (aggregateCLI pd1 lookup now tasks).total_completed ∧
    (aggregateExp pd2 now tasks).in_progress = (aggregateCLI pd1 lookup now tasks).total_in_progress ∧
    (aggregateExp pd2 now tasks).not_started = (aggregateCLI pd1 lookup now tasks).total_not_started ∧
    ((∀ t ∈ tasks, ∀ s, t.dueDateTime = some s → pd1 s = pd2 s) →
      (aggregateExp pd2 now tasks).late = (aggregateCLI pd1 lookup now tasks).total_late) := by
  obtain ⟨e1, e2, e3, e4⟩ := aggExp_counts pd2 now tasks ExpAgg.empty
  obtain ⟨c1, c2, c3, c4⟩ := aggCLI_counts pd1 lookup now tasks Agg.empty
  refine ⟨?_, ?_, ?_, ?_⟩
  · show (tasks.foldl (processTaskExp pd2 now) ExpAgg.empty).completed =
      (tasks.foldl (processTaskCLI pd1 lookup now) Agg.empty).total_completed
    rw [e1, c1]
    simp [Agg.empty, ExpAgg.empty]
  · show (tasks.foldl (processTaskExp pd2 now) ExpAgg.empty).in_progress =
      (tasks.foldl (processTaskCLI pd1 lookup now) Agg.empty).total_in_progress
    rw [e2, c2]
    simp [Agg.empty, ExpAgg.empty]
  · show (tasks.foldl (processTaskExp pd2 now) ExpAgg.empty).not_started =
      (tasks.foldl (processTaskCLI pd1 lookup now) Agg.empty).total_not_started
    rw [e3, c3]
    simp [Agg.empty, ExpAgg.empty]
  · intro hagree
    show (tasks.foldl (processTaskExp pd2 now) ExpAgg.empty).late =
      (tasks.foldl (processTaskCLI pd1 lookup now) Agg.empty).total_late
    rw [e4, c4]
    have hcount : tasks.countP (fun t => is_late pd2 now t) =
        tasks.countP (fun t => is_late pd1 now t) := by
      apply List.countP_congr
      intro t ht
      rw [is_late_congr pd1 pd2 now t (fun s hs => hagree t ht s hs)]
    rw [hcount]
    simp [Agg.empty, ExpAgg.empty]

/-- Witness for C10: both parsers agree on the canonical due string, and
the 4-tuples of the two variants coincide on a two-task input. -/
theorem C10_variants_agree_witness :
    (∀ t ∈ [tDueLateW, tNoAssigneeW], ∀ s, t.dueDateTime = some s →
      pdCanonW s = pdCanonW s) ∧
    ((aggregateExp pdCanonW 1700000000 [tDueLateW, tNoAssigneeW]).completed =
      (aggregateCLI pdCanonW [] 1700000000 [tDueLateW, tNoAssigneeW]).total_completed ∧
     (aggregateExp pdCanonW 1700000000 [tDueLateW, tNoAssigneeW]).in_progress =
      (aggregateCLI pdCanonW [] 1700000000 [tDueLateW, tNoAssigneeW]).total_in_progress ∧
     (aggregateExp pdCanonW 1700000000 [tDueLateW, tNoAssigneeW]).not_started =
      (aggregateCLI pdCanonW [] 1700000000 [tDueLateW, tNoAssigneeW]).total_not_started ∧
     (aggregateExp pdCanonW 1700000000 [tDueLateW, tNoAssigneeW]).late =
      (aggregateCLI pdCanonW [] 1700000000 [tDueLateW, tNoAssigneeW]).total_late) :=
  ⟨fun _ _ _ _ => rfl,
    (C10_variants_agree pdCanonW pdCanonW [] 1700000000 [tDueLateW, tNoAssigneeW]).1,
    (C10_variants_agree pdCanonW pdCanonW [] 1700000000 [tDueLateW, tNoAssigneeW]).2.1,
    (C10_variants_agree pdCanonW pdCanonW [] 1700000000 [tDueLateW, tNoAssigneeW]).2.2.1,
    (C10_variants_agree pdCanonW pdCanonW [] 1700000000 [tDueLateW, tNoAssigneeW]).2.2.2
      (fun _ _ _ _ => rfl)⟩

end Planner
